import Mathlib

/-!
Shallow embedding of `src/client/activation/notebookConcatConverter.ts`
(the `NotebookConcatConverter` class) and verification of its
specification.

Modelling conventions:
* `Uri` is modelled as `Nat`; the TypeScript code compares uris via
  `toString()` equality, which for our purposes is plain equality.
* The vscode `NotebookConcatTextDocument` (the Concatenation Engine) is an
  external collaborator; it is modelled as a structure of abstract
  functions (`locationAt`, `positionAt` on locations and offsets,
  `offsetAt`, `contains`, `isClosed`).
* A thrown (unchecked) JavaScript error is modelled as `Option.none`
  (for `lineAt`, `lineCount`) or `Except.error` (for `save`).
* `Array.prototype.reduce` without an initial value throws on an empty
  array; it is modelled by `reduceNoInit` returning `Option`.
* The vscode `Location` constructor, when given a `Position`, stores the
  zero-width range at that position; `mkLocation` reflects this.
* A vscode `NotebookCell`'s `uri` is the uri of its backing document,
  hence `Cell.uri` is defined as `c.document.uri`.
-/

namespace NotebookConcat

abbrev Uri := Nat

/-- vscode `Position`: zero-based line and character. -/
structure Position where
  line : Nat
  character : Nat
deriving DecidableEq, Repr

/-- vscode `Range`: start and end positions. (`end` is a Lean keyword,
so the field is called `stop`.) -/
structure Range where
  start : Position
  stop : Position
deriving DecidableEq, Repr

/-- vscode `Location`: a uri together with a range inside that document. -/
structure Location where
  uri : Uri
  range : Range
deriving DecidableEq, Repr

/-- `new Location(uri, position)`: a `Location` built from a `Position`
holds the zero-width range at that position. -/
def mkLocation (uri : Uri) (position : Position) : Location :=
  ⟨uri, ⟨position, position⟩⟩

/-- vscode `TextLine`, the result of `TextDocument.lineAt`. -/
structure TextLine where
  lineNumber : Nat
  text : String

/-- The slice of the vscode `TextDocument` interface that a cell's
backing document provides to the converter. -/
structure TextDoc where
  uri : Uri
  lineCount : Nat
  lineAt : Position → TextLine
  positionAt : Nat → Position

/-- vscode `NotebookCell`; its `uri` is the uri of its document. -/
structure Cell where
  document : TextDoc

def Cell.uri (c : Cell) : Uri := c.document.uri

/-- The slice of the vscode `NotebookDocument` interface used by the
converter. -/
structure NotebookDocument where
  uri : Uri
  isUntitled : Bool
  languages : List String
  isDirty : Bool
  cells : List Cell

/-- The Concatenation Engine (`vscode.NotebookConcatTextDocument`),
an external collaborator, modelled as abstract query functions.
`positionAtLoc` is the `positionAt(location)` overload and
`positionAtOffset` the `positionAt(offset)` overload. -/
structure ConcatEngine where
  locationAt : Position → Location
  positionAtLoc : Location → Position
  positionAtOffset : Nat → Position
  offsetAt : Position → Nat
  contains : Uri → Bool
  isClosed : Bool

/-- State of a `NotebookConcatConverter` instance. -/
structure NotebookConcatConverter where
  notebookDoc : NotebookDocument
  concatDocument : ConcatEngine
  dummyFilePath : String
  dummyUri : Uri
  _version : Nat

namespace NotebookConcatConverter

/-- The constructor: stores the notebook, the engine obtained from
`notebookApi.createConcatTextDocument`, the generated dummy path/uri,
and initialises `_version = 1`. -/
def construct (notebookDoc : NotebookDocument) (engine : ConcatEngine)
    (dummyFilePath : String) (dummyUri : Uri) : NotebookConcatConverter :=
  { notebookDoc := notebookDoc
    concatDocument := engine
    dummyFilePath := dummyFilePath
    dummyUri := dummyUri
    _version := 1 }

/-- `private onDidChange() { this._version += 1; }` -/
def onDidChange (a : NotebookConcatConverter) : NotebookConcatConverter :=
  { a with _version := a._version + 1 }

/-- `get version()` -/
def version (a : NotebookConcatConverter) : Nat := a._version

/-- `Array.prototype.reduce(f)` with no initial value: throws on an
empty array, otherwise folds from the first element. -/
def reduceNoInit (f : α → α → α) : List α → Option α
  | [] => none
  | x :: xs => some (xs.foldl f x)

/-- `get lineCount()`:
`this.notebookDoc.cells.map((c) => c.document.lineCount).reduce((p, c) => p + c)`. -/
def lineCount (a : NotebookConcatConverter) : Option Nat :=
  reduceNoInit (fun p c => p + c)
    (a.notebookDoc.cells.map (fun c => c.document.lineCount))

/-- `isCellOfDocument(uri)` -/
def isCellOfDocument (a : NotebookConcatConverter) (uri : Uri) : Bool :=
  a.concatDocument.contains uri

def notImplementedMessage : String := "Not implemented"

/-- `save()`: always `throw new Error('Not implemented')`. -/
def save (_ : NotebookConcatConverter) : Except String Bool :=
  Except.error notImplementedMessage

/-- Argument of `lineAt`: `Position | number`. -/
inductive PosOrNumber where
  | pos (p : Position)
  | num (n : Nat)

/-- `lineAt(posOrNumber)`: normalise a bare number to column 0, ask the
engine for the owning location, find the cell with that uri, and return
its line at the location's local start.  The non-null assertion `cell!`
throws when no cell matches, modelled by `none`. -/
def lineAt (a : NotebookConcatConverter) (posOrNumber : PosOrNumber) :
    Option TextLine :=
  let position := match posOrNumber with
    | .num n => Position.mk n 0
    | .pos p => p
  let location := a.concatDocument.locationAt position
  match a.notebookDoc.cells.find? (fun c => c.uri == location.uri) with
  | some cell => some (cell.document.lineAt location.range.start)
  | none => none

/-- Result of `getConcatDocument`: either the converter itself (`this`)
or the cell document passed in. -/
inductive DocRef where
  | self
  | doc (d : TextDoc)

/-- `getConcatDocument(cell)` -/
def getConcatDocument (a : NotebookConcatConverter) (cell : TextDoc) :
    DocRef :=
  if a.isCellOfDocument cell.uri then DocRef.self else DocRef.doc cell

/-- `toOutgoingPosition(cell, position)` -/
def toOutgoingPosition (a : NotebookConcatConverter) (cell : TextDoc)
    (position : Position) : Position :=
  a.concatDocument.positionAtLoc (mkLocation cell.uri position)

/-- `toOutgoingRange(cell, cellRange)` -/
def toOutgoingRange (a : NotebookConcatConverter) (cell : TextDoc)
    (cellRange : Range) : Range :=
  let startPos := a.concatDocument.positionAtLoc (mkLocation cell.uri cellRange.start)
  let endPos := a.concatDocument.positionAtLoc (mkLocation cell.uri cellRange.stop)
  ⟨startPos, endPos⟩

/-- `toOutgoingOffset(cell, offset)` -/
def toOutgoingOffset (a : NotebookConcatConverter) (cell : TextDoc)
    (offset : Nat) : Nat :=
  let position := cell.positionAt offset
  let overallPosition := a.concatDocument.positionAtLoc (mkLocation cell.uri position)
  a.concatDocument.offsetAt overallPosition

/-- `private toIncomingRange(range)` -/
def toIncomingRange (a : NotebookConcatConverter) (range : Range) : Range :=
  let startLoc := a.concatDocument.locationAt range.start
  let endLoc := a.concatDocument.locationAt range.stop
  ⟨startLoc.range.start, endLoc.range.stop⟩

end NotebookConcatConverter

/-- vscode `Hover`: contents plus an optional range (`range` is an
optional field; `null`/absent is `none`). -/
structure Hover where
  contents : List String
  range : Option Range

/-- `CompletionItem.range`: either a plain `Range` or an
inserting/replacing pair (the `instanceof Range` test dispatches). -/
inductive ItemRange where
  | simple (r : Range)
  | pair (inserting : Range) (replacing : Range)

/-- vscode `CompletionItem`: a label plus an optional range. -/
structure CompletionItem where
  label : String
  range : Option ItemRange

/-- vscode `CompletionList`: metadata plus items. -/
structure CompletionList where
  isIncomplete : Bool
  items : List CompletionItem

/-- Argument of `toIncomingCompletions`: `CompletionItem[] | CompletionList`
(the `Array.isArray` test dispatches); `null | undefined` is handled by
wrapping in `Option`. -/
inductive Completions where
  | arr (items : List CompletionItem)
  | list (cl : CompletionList)

/-- vscode `TextDocumentContentChangeEvent`. -/
structure ContentChangeEvent where
  range : Range
  rangeOffset : Nat
  rangeLength : Nat
  text : String

/-- vscode `TextDocumentChangeEvent` at the cell level. -/
structure CellChangeEvent where
  document : TextDoc
  contentChanges : List ContentChangeEvent

/-- The outgoing (concatenated-space) change event built by
`toOutgoingChangeEvent`: its `document` is the result of
`getConcatDocument`. -/
structure OutgoingChangeEvent where
  document : NotebookConcatConverter.DocRef
  contentChanges : List ContentChangeEvent

namespace NotebookConcatConverter

/-- `toIncomingHover(_cell, hover)` -/
def toIncomingHover (a : NotebookConcatConverter) (_cell : TextDoc)
    (hover : Option Hover) : Option Hover :=
  match hover with
  | some hv =>
    match hv.range with
    | some r => some { hv with range := some (a.toIncomingRange r) }
    | none => hover
  | none => hover

/-- `private toIncomingCompletion(item)` -/
def toIncomingCompletion (a : NotebookConcatConverter)
    (item : CompletionItem) : CompletionItem :=
  match item.range with
  | some (.simple r) =>
    { item with range := some (.simple (a.toIncomingRange r)) }
  | some (.pair inserting replacing) =>
    { item with
      range := some (.pair (a.toIncomingRange inserting) (a.toIncomingRange replacing)) }
  | none => item

/-- `toIncomingCompletions(_cell, completions)` -/
def toIncomingCompletions (a : NotebookConcatConverter) (_cell : TextDoc)
    (completions : Option Completions) : Option Completions :=
  match completions with
  | some (.arr items) => some (.arr (items.map a.toIncomingCompletion))
  | some (.list cl) =>
    some (.list { cl with items := cl.items.map a.toIncomingCompletion })
  | none => completions

/-- `private toOutgoingContentChangeEvent(cell, ev)` -/
def toOutgoingContentChangeEvent (a : NotebookConcatConverter)
    (cell : TextDoc) (ev : ContentChangeEvent) : ContentChangeEvent :=
  { range := a.toOutgoingRange cell ev.range
    rangeLength := ev.rangeLength
    rangeOffset := a.toOutgoingOffset cell ev.rangeOffset
    text := ev.text }

/-- `toOutgoingChangeEvent(cellEvent)` -/
def toOutgoingChangeEvent (a : NotebookConcatConverter)
    (cellEvent : CellChangeEvent) : OutgoingChangeEvent :=
  { document := a.getConcatDocument cellEvent.document
    contentChanges :=
      cellEvent.contentChanges.map
        (a.toOutgoingContentChangeEvent cellEvent.document) }

end NotebookConcatConverter

/-! Concrete sample instances used to witness the theorems below. -/

def emptyText : String := ""

def sampleLine : TextLine := { lineNumber := 0, text := emptyText }

def sampleDoc : TextDoc :=
  { uri := 0
    lineCount := 1
    lineAt := fun _ => sampleLine
    positionAt := fun _ => ⟨0, 0⟩ }

def sampleDoc1 : TextDoc := { sampleDoc with uri := 1 }

def sampleCell : Cell := ⟨sampleDoc⟩

def sampleNotebook : NotebookDocument :=
  { uri := 7
    isUntitled := false
    languages := []
    isDirty := false
    cells := [⟨sampleDoc⟩, ⟨sampleDoc1⟩] }

/-- A sample engine for which `locationAt` and `positionAt` are mutually
inverse: every concatenated position lives in the cell with uri 0 at the
same local coordinates. -/
def sampleEngine : ConcatEngine :=
  { locationAt := fun p => ⟨0, ⟨p, p⟩⟩
    positionAtLoc := fun L => L.range.start
    positionAtOffset := fun _ => ⟨0, 0⟩
    offsetAt := fun _ => 0
    contains := fun u => u == 0 || u == 1
    isClosed := false }

def sampleConv : NotebookConcatConverter :=
  NotebookConcatConverter.construct sampleNotebook sampleEngine emptyText 99

def emptyConv : NotebookConcatConverter :=
  NotebookConcatConverter.construct { sampleNotebook with cells := [] }
    sampleEngine emptyText 99

namespace NotebookConcatConverter

/-! Claim theorems. -/

lemma find?_sat {α} {p : α → Bool} :
    ∀ {l : List α} {c : α}, l.find? p = some c → p c = true := by
  intro l
  induction l with
  | nil => intro c h; simp [List.find?] at h
  | cons x xs ih =>
    intro c h
    rw [List.find?] at h
    cases hx : p x with
    | true => rw [hx] at h; cases h; exact hx
    | false => rw [hx] at h; exact ih h

lemma foldl_add (l : List Nat) :
    ∀ x : Nat, l.foldl (fun p c => p + c) x = x + l.sum := by
  induction l with
  | nil => intro x; simp
  | cons y ys ih =>
    intro x
    rw [List.foldl_cons, ih, List.sum_cons]
    omega

/-- Claim C1: assuming the engine's `locationAt` and `positionAt` are
mutually inverse, applying `toIncomingRange` to the zero-width range
`[P, P]` and then `toOutgoingPosition` to the resulting cell-local start,
with the cell resolved from the start location's uri, returns `P`. -/
theorem c1_roundTrip (a : NotebookConcatConverter) (P : Position)
    (hinv : ∀ Q : Position,
      a.concatDocument.positionAtLoc
        (mkLocation (a.concatDocument.locationAt Q).uri
          (a.concatDocument.locationAt Q).range.start) = Q)
    (cell : Cell)
    (hfind : a.notebookDoc.cells.find?
        (fun c => c.uri == (a.concatDocument.locationAt P).uri) = some cell) :
    a.toOutgoingPosition cell.document (a.toIncomingRange ⟨P, P⟩).start = P := by
  have hmem : (cell.uri == (a.concatDocument.locationAt P).uri) = true :=
    find?_sat (p := fun c : Cell => c.uri == (a.concatDocument.locationAt P).uri)
      hfind
  have huri : cell.document.uri = (a.concatDocument.locationAt P).uri :=
    eq_of_beq hmem
  show a.concatDocument.positionAtLoc
      (mkLocation cell.document.uri (a.concatDocument.locationAt P).range.start) = P
  rw [huri]
  exact hinv P

/-- Witness for C1 at the sample converter and position (2, 3). -/
theorem c1_witness :
    sampleConv.toOutgoingPosition sampleCell.document
      (sampleConv.toIncomingRange ⟨⟨2, 3⟩, ⟨2, 3⟩⟩).start = ⟨2, 3⟩ :=
  c1_roundTrip sampleConv ⟨2, 3⟩ (fun _ => rfl) sampleCell rfl

/-- Claim C2: `version` is 1 immediately after construction; each change
notification increments it by exactly 1; after `n` notifications it is
`1 + n` (hence it is monotone and never decreases). -/
theorem c2_version (nb : NotebookDocument) (e : ConcatEngine) (fp : String)
    (u : Uri) (a : NotebookConcatConverter) (n : Nat) :
    version (construct nb e fp u) = 1
    ∧ version (onDidChange a) = version a + 1
    ∧ version (Nat.iterate onDidChange n (construct nb e fp u)) = 1 + n := by
  refine ⟨rfl, rfl, ?_⟩
  induction n with
  | zero => rfl
  | succ k ih =>
    rw [Function.iterate_succ_apply']
    have h1 : ∀ s : NotebookConcatConverter,
        version (onDidChange s) = version s + 1 := fun _ => rfl
    rw [h1, ih]
    omega

/-- Claim C3: for a notebook with cells `c :: cs` (at least one cell),
`lineCount` is the sum of the cells' line counts, computed from the
current cell list. -/
theorem c3_lineCount (a : NotebookConcatConverter) (c : Cell)
    (cs : List Cell) (h : a.notebookDoc.cells = c :: cs) :
    a.lineCount =
      some (((c :: cs).map (fun x => x.document.lineCount)).sum) := by
  unfold lineCount reduceNoInit
  rw [h]
  simp only [List.map_cons, List.sum_cons]
  rw [foldl_add]

/-- Witness for C3: the two-cell sample notebook has `lineCount` 2. -/
theorem c3_witness : sampleConv.lineCount = some 2 :=
  c3_lineCount sampleConv sampleCell [Cell.mk sampleDoc1] rfl

/-- Claim C4: `lineAt` normalises a bare line number to column 0; when no
cell's uri matches the resolved location it fails (returns `none`);
otherwise it returns the matching cell's line at the location's local
start. -/
theorem c4_lineAt (a : NotebookConcatConverter) (n : Nat) (p : Position) :
    a.lineAt (.num n) = a.lineAt (.pos ⟨n, 0⟩)
    ∧ (a.notebookDoc.cells.find?
          (fun c => c.uri == (a.concatDocument.locationAt p).uri) = none →
        a.lineAt (.pos p) = none)
    ∧ ∀ cell : Cell,
        a.notebookDoc.cells.find?
          (fun c => c.uri == (a.concatDocument.locationAt p).uri) = some cell →
        a.lineAt (.pos p) =
          some (cell.document.lineAt
            (a.concatDocument.locationAt p).range.start) := by
  refine ⟨rfl, ?_, ?_⟩
  · intro h
    unfold lineAt
    simp only [h]
  · intro cell h
    unfold lineAt
    simp only [h]

/-- Witness for C4 at the sample converter: position (0, 0) resolves to
the first cell. -/
theorem c4_witness :
    sampleConv.lineAt (.pos ⟨0, 0⟩) =
      some (sampleCell.document.lineAt
        (sampleConv.concatDocument.locationAt ⟨0, 0⟩).range.start) :=
  (c4_lineAt sampleConv 0 ⟨0, 0⟩).2.2 sampleCell rfl

/-- Claim C5: every invocation of `save` fails (it is the constant
`Error('Not implemented')`); being a pure function of the state, it
returns no updated state. -/
theorem c5_save (a : NotebookConcatConverter) :
    a.save = Except.error notImplementedMessage := rfl

/-- Claim C6: `getConcatDocument` returns the converter itself exactly
when the engine contains the document's uri and the document unchanged
otherwise; `isCellOfDocument` coincides with the engine's `contains`. -/
theorem c6_getConcatDocument (a : NotebookConcatConverter) (d : TextDoc)
    (u : Uri) :
    (a.concatDocument.contains d.uri = true →
      a.getConcatDocument d = DocRef.self)
    ∧ (a.concatDocument.contains d.uri = false →
      a.getConcatDocument d = DocRef.doc d)
    ∧ a.isCellOfDocument u = a.concatDocument.contains u := by
  refine ⟨?_, ?_, rfl⟩ <;> intro h <;>
    simp [getConcatDocument, isCellOfDocument, h]

/-- Witness for C6: the sample engine contains uri 0, so the sample
document maps to the converter itself. -/
theorem c6_witness : sampleConv.getConcatDocument sampleDoc = DocRef.self :=
  (c6_getConcatDocument sampleConv sampleDoc 0).1 rfl

/-- Claim C7: `toIncomingHover` passes a missing hover through unchanged,
passes a hover without a range through unchanged, and on a hover with a
range rewrites only the range via `toIncomingRange`, preserving the
contents. -/
theorem c7_toIncomingHover (a : NotebookConcatConverter) (c : TextDoc)
    (cts : List String) (r : Range) :
    a.toIncomingHover c none = none
    ∧ a.toIncomingHover c (some ⟨cts, none⟩) = some ⟨cts, none⟩
    ∧ a.toIncomingHover c (some ⟨cts, some r⟩) =
        some ⟨cts, some (a.toIncomingRange r)⟩ :=
  ⟨rfl, rfl, rfl⟩

/-- Claim C8: `toOutgoingChangeEvent` maps the document through
`getConcatDocument` and maps the content changes one-to-one in order,
translating `range` via `toOutgoingRange` and `rangeOffset` via
`toOutgoingOffset` while preserving `text` and `rangeLength` verbatim. -/
theorem c8_toOutgoingChangeEvent (a : NotebookConcatConverter)
    (e : CellChangeEvent) :
    (a.toOutgoingChangeEvent e).document = a.getConcatDocument e.document
    ∧ (a.toOutgoingChangeEvent e).contentChanges =
        e.contentChanges.map (fun ev =>
          { range := a.toOutgoingRange e.document ev.range
            rangeOffset := a.toOutgoingOffset e.document ev.rangeOffset
            rangeLength := ev.rangeLength
            text := ev.text }) :=
  ⟨rfl, rfl⟩

/-- Claim C9: `toIncomingCompletions` on a list-with-metadata wrapper
preserves the non-items field and maps the items through
`toIncomingCompletion`, which rewrites a simple range via
`toIncomingRange`, rewrites each of an inserting/replacing pair
independently, and leaves a rangeless item unchanged. -/
theorem c9_toIncomingCompletions (a : NotebookConcatConverter)
    (c : TextDoc) (inc : Bool) (items : List CompletionItem) (lbl : String)
    (r ins rep : Range) :
    a.toIncomingCompletions c (some (.list ⟨inc, items⟩)) =
        some (.list ⟨inc, items.map a.toIncomingCompletion⟩)
    ∧ a.toIncomingCompletion ⟨lbl, some (.simple r)⟩ =
        ⟨lbl, some (.simple (a.toIncomingRange r))⟩
    ∧ a.toIncomingCompletion ⟨lbl, some (.pair ins rep)⟩ =
        ⟨lbl, some (.pair (a.toIncomingRange ins) (a.toIncomingRange rep))⟩
    ∧ a.toIncomingCompletion ⟨lbl, none⟩ = ⟨lbl, none⟩ :=
  ⟨rfl, rfl, rfl, rfl⟩

/-- Claim C10: on a notebook with no cells, `lineCount` fails (the
`reduce` has no initial value), modelled as `none`, rather than
returning 0. -/
theorem c10_lineCount_empty (a : NotebookConcatConverter)
    (h : a.notebookDoc.cells = []) : a.lineCount = none := by
  unfold lineCount reduceNoInit
  rw [h]
  rfl

/-- Witness for C10 at a converter over an empty notebook. -/
theorem c10_witness : emptyConv.lineCount = none :=
  c10_lineCount_empty emptyConv rfl

end NotebookConcatConverter

end NotebookConcat
